import Mathlib

/-!
Shallow embedding of `src/allCombined_TridentPier.py`: a script that fetches
six oceanographic parameters from the NOAA tides-and-currents API, computes
the global min/max timestamp over all fetched records, and replays the
records into a chart in a sleep-paced loop.

Modelling conventions:
* A pandas timestamp (`pd.to_datetime(entry['t']).value`) is an absolute
  instant in nanoseconds; we carry it as an `Int` already parsed, since the
  claims treat timestamps abstractly.
* Python `float(value_str)` is modelled exactly over the literal grammar it
  accepts (optional sign, `inf`/`infinity`/`nan` in any case, decimal
  numerals with optional fraction and exponent), with the finite result an
  exact rational; digit-group underscores and double-precision rounding /
  overflow-to-infinity are not modelled.
* Python runtime failures (KeyError / IndexError / ValueError) are explicit
  error values; the playback loop returns the event trace emitted up to the
  first failure.
-/

/-- A raw record from a JSON response: the parsed instant of its `t` field
(nanoseconds), and the optional raw strings of its `s` and `v` fields
(`none` when the key is absent from the record). -/
structure Entry where
  t : Int
  s : Option String := none
  v : Option String := none
deriving DecidableEq, Repr

/-- A parsed JSON response body, as far as the script inspects it: it may
contain a `data` array and/or a `predictions` array of records. -/
structure Response where
  data : Option (List Entry) := none
  predictions : Option (List Entry) := none
deriving DecidableEq, Repr

/-- The six parameter names, in the order of the `urls` dict. -/
def paramNames : List String :=
  ["wind", "air_pressure", "water_level", "tide_predictions",
   "water_temperature", "air_temperature"]

/-- The parameters listed in the `elif param in [...]` branch of the
playback loop (all parameters other than `wind`). -/
def nonWindParams : List String :=
  ["air_pressure", "water_level", "tide_predictions",
   "water_temperature", "air_temperature"]

/-- The `urls` dict of the script, verbatim. -/
def urls : List (String × String) :=
  [("wind", "https://api.tidesandcurrents.noaa.gov/api/prod/datagetter?begin_date=20241008&end_date=20241012&station=8721604&product=wind&datum=MHHW&time_zone=gmt&units=metric&format=json"),
   ("air_pressure", "https://api.tidesandcurrents.noaa.gov/api/prod/datagetter?begin_date=20241008&end_date=20241012&station=8721604&product=air_pressure&datum=MHHW&time_zone=gmt&units=metric&format=json"),
   ("water_level", "https://api.tidesandcurrents.noaa.gov/api/prod/datagetter?begin_date=20241008&end_date=20241012&station=8721604&product=water_level&datum=MHHW&time_zone=gmt&units=metric&format=json"),
   ("tide_predictions", "https://api.tidesandcurrents.noaa.gov/api/prod/datagetter?begin_date=20241008&end_date=20241012&station=8721604&product=predictions&datum=MHHW&time_zone=gmt&units=metric&format=json"),
   ("water_temperature", "https://api.tidesandcurrents.noaa.gov/api/prod/datagetter?begin_date=20241008&end_date=20241012&station=8721604&product=water_temperature&datum=MHHW&time_zone=gmt&units=metric&format=json"),
   ("air_temperature", "https://api.tidesandcurrents.noaa.gov/api/prod/datagetter?begin_date=20241008&end_date=20241012&station=8721604&product=air_temperature&datum=MHHW&time_zone=gmt&units=metric&format=json")]

/-- Split a character list at every occurrence of `sep` (the pieces do not
contain `sep`; n separators yield n+1 pieces). -/
def splitOnChar (sep : Char) : List Char → List (List Char)
  | [] => [[]]
  | c :: cs =>
    let rest := splitOnChar sep cs
    if c = sep then [] :: rest
    else
      match rest with
      | r :: rs => (c :: r) :: rs
      | [] => [[c]]

/-- The part of a URL before the first `?`. -/
def urlBase (url : String) : String :=
  match splitOnChar '?' url.data with
  | base :: _ => ⟨base⟩
  | [] => url

/-- The query string of a URL, split into `key=value` pairs. -/
def queryPairs (url : String) : List (String × String) :=
  match splitOnChar '?' url.data with
  | [_, q] =>
    (splitOnChar '&' q).map fun kv =>
      match splitOnChar '=' kv with
      | [k, v] => (⟨k⟩, ⟨v⟩)
      | _ => (⟨kv⟩, "")
  | _ => []

/-- The fixed API endpoint all six URLs target. -/
def apiBase : String :=
  "https://api.tidesandcurrents.noaa.gov/api/prod/datagetter"

/-- The query-parameter list the spec claims each URL carries, with the
given `product` value. -/
def expectedQuery (product : String) : List (String × String) :=
  [("begin_date", "20241008"), ("end_date", "20241012"),
   ("station", "8721604"), ("product", product), ("datum", "MHHW"),
   ("time_zone", "gmt"), ("units", "metric"), ("format", "json")]

/-- Model of `data_store`: an insertion-ordered mapping from parameter name to its
record list (a Python dict modelled as an association list). -/
abbrev DataStore : Type := List (String × List Entry)

/-- Python dict lookup (first matching key). -/
def lookupStore (store : DataStore) (k : String) : Option (List Entry) :=
  match store with
  | [] => none
  | (k₀, v₀) :: rest => if k₀ = k then some v₀ else lookupStore rest k

/-- State threaded through the fetch loop: `data_store`, the `timestamps`
pool, and the list of parameters logged as having an unexpected shape. -/
structure FetchState where
  data_store : DataStore
  timestamps : List Int
  errorLog : List String
deriving Repr

/-- One iteration of the fetch loop (`for param, url in urls.items()`):
if the JSON has a `data` key its array becomes the record list, else a
present `predictions` array does; otherwise the error is printed and the
iteration `continue`s.  For a stored parameter, every record's timestamp
is appended to the pool. -/
def fetchStep (st : FetchState) (pr : String × Response) : FetchState :=
  let (param, resp) := pr
  match resp.data with
  | some recs =>
      { st with data_store := st.data_store ++ [(param, recs)]
                timestamps := st.timestamps ++ recs.map (·.t) }
  | none =>
    match resp.predictions with
    | some recs =>
        { st with data_store := st.data_store ++ [(param, recs)]
                  timestamps := st.timestamps ++ recs.map (·.t) }
    | none =>
        { st with errorLog := st.errorLog ++ [param] }

/-- The whole fetch loop, starting from `data_store = {}`, `timestamps = []`. -/
def fetchAll (responses : List (String × Response)) : FetchState :=
  responses.foldl fetchStep ⟨[], [], []⟩

/-- The result of a successful Python `float(...)` call: a finite value
(carried as an exact rational), a signed infinity, or a NaN. -/
inductive PyFloat where
  | finite (q : ℚ)
  | infinity (neg : Bool)
  | nan
deriving DecidableEq, Repr

/-- Is the float finite? -/
def PyFloat.isFinite : PyFloat → Bool
  | .finite _ => true
  | _ => false

/-- Leading decimal digits of a character list, and the rest. -/
def splitDigits : List Char → List Char × List Char
  | [] => ([], [])
  | c :: cs =>
    if c.isDigit then
      let (ds, rest) := splitDigits cs
      (c :: ds, rest)
    else ([], c :: cs)

/-- Value of a digit string. -/
def digitsToNat (ds : List Char) : Nat :=
  ds.foldl (fun n c => 10 * n + (c.toNat - 48)) 0

/-- The decimal part of Python's float-literal grammar:
`digits [. [digits]] [(e|E) [sign] digits]`, where the mantissa holds at
least one digit; the result is the exact rational value. -/
def parseDecimal (cs : List Char) : Option ℚ :=
  let (ip, rest) := splitDigits cs
  let (fp, rest2) :=
    match rest with
    | '.' :: cs2 => splitDigits cs2
    | _ => ([], rest)
  if ip.isEmpty && fp.isEmpty then none
  else
    let mant : ℚ := (digitsToNat (ip ++ fp) : ℚ) / ((10 : ℚ) ^ fp.length)
    match rest2 with
    | [] => some mant
    | c :: cs3 =>
      if c = 'e' || c = 'E' then
        let (eneg, cs4) :=
          match cs3 with
          | '+' :: r => (false, r)
          | '-' :: r => (true, r)
          | r => (false, r)
        let (eds, rest5) := splitDigits cs4
        if eds.isEmpty || !rest5.isEmpty then none
        else some (if eneg then mant / (10 : ℚ) ^ digitsToNat eds
                   else mant * (10 : ℚ) ^ digitsToNat eds)
      else none

/-- Decidable equality for `Except` results. -/
instance exceptDecEq {ε α : Type} [DecidableEq ε] [DecidableEq α] :
    DecidableEq (Except ε α) := fun x y =>
  match x, y with
  | .ok a, .ok b =>
    if h : a = b then isTrue (by rw [h])
    else isFalse fun hh => h (Except.ok.inj hh)
  | .error a, .error b =>
    if h : a = b then isTrue (by rw [h])
    else isFalse fun hh => h (Except.error.inj hh)
  | .ok _, .error _ => isFalse fun hh => Except.noConfusion hh
  | .error _, .ok _ => isFalse fun hh => Except.noConfusion hh

/-- Strip leading and trailing whitespace from a character list
(Python's `str.strip()` as applied by `float`). -/
def stripWhitespace (cs : List Char) : List Char :=
  ((cs.dropWhile Char.isWhitespace).reverse.dropWhile Char.isWhitespace).reverse

/-- Python `float(s)`: strip surrounding whitespace, read an optional sign,
then either `inf`/`infinity`/`nan` in any letter case or a decimal numeral;
anything else raises `ValueError` (the error carries the offending string).
Digit-group underscores and double-precision rounding / overflow are not
modelled. -/
def pyFloat (s : String) : Except String PyFloat :=
  let cs := stripWhitespace s.data
  let (neg, cs1) :=
    match cs with
    | '+' :: r => (false, r)
    | '-' :: r => (true, r)
    | r => (false, r)
  let low := cs1.map Char.toLower
  if low = "inf".data || low = "infinity".data then .ok (.infinity neg)
  else if low = "nan".data then .ok .nan
  else
    match parseDecimal cs1 with
    | some q => .ok (.finite (if neg then -q else q))
    | none => .error s

/-- Model of `min_time = min(timestamps); max_time = max(timestamps)`: Python's
`min`/`max` of a list fold over it and raise `ValueError` on an empty
list (the spec's `EmptyDatasetError`). -/
def aggregateRange (timestamps : List Int) : Except String (Int × Int) :=
  match timestamps with
  | [] => .error "EmptyDatasetError"
  | t :: ts => .ok (ts.foldl min t, ts.foldl max t)

/-- Model of `timestamp.value / 10**6`: conversion of a nanosecond instant to
milliseconds by Python true division (exact as a rational; the script
applies it both to `min_time`/`max_time` and to each appended point). -/
def msOf (t : Int) : ℚ := (t : ℚ) / 10 ^ 6

/-- A Python runtime failure raised by the playback loop. -/
inductive PyError where
  | keyError (k : String)
  | indexError
  | valueError (s : String)
deriving DecidableEq, Repr

/-- An observable action of the playback loop: `series.add(x_value, y_value)`
for one parameter, the missing-data print for one parameter (with the
record's timestamp), or the `time.sleep(0.03)` pause. -/
inductive Event where
  | append (param : String) (x : ℚ) (y : PyFloat)
  | skip (param : String) (t : Int)
  | sleep
deriving DecidableEq, Repr

/-- Selection of `value_str`: `entry['s']` for `wind`, `entry['v']` for the
five parameters named in the `elif` list (a missing key raises `KeyError`;
any other parameter name would leave `value_str` unbound). -/
def valueStrFor (param : String) (e : Entry) : Except PyError String :=
  if param = "wind" then
    match e.s with
    | some s => .ok s
    | none => .error (.keyError "s")
  else if param ∈ nonWindParams then
    match e.v with
    | some v => .ok v
    | none => .error (.keyError "v")
  else .error (.keyError "value_str unbound")

/-- The body of the inner loop for one parameter at position `i`:
look up the parameter's record list (`KeyError` if the fetch skipped it),
index record `i` (`IndexError` if out of range), convert the timestamp to
milliseconds (`timestamp.value / 10**6`), then either add the point (when
`value_str` is non-empty and converts) or print the missing-data notice. -/
def processParam (store : DataStore) (i : Nat) (param : String) :
    Except PyError (List Event) :=
  match lookupStore store param with
  | none => .error (.keyError param)
  | some series =>
    match series.get? i with
    | none => .error .indexError
    | some entry =>
      let x : ℚ := msOf entry.t
      match valueStrFor param entry with
      | .error e => .error e
      | .ok vs =>
        if vs ≠ "" then
          match pyFloat vs with
          | .ok y => .ok [.append param x y]
          | .error s => .error (.valueError s)
        else .ok [.skip param entry.t]

/-- The inner loop over `series_list.items()` at position `i`,
returning the events emitted before any failure. -/
def runParams (store : DataStore) (i : Nat) :
    List String → List Event × Option PyError
  | [] => ([], none)
  | p :: ps =>
    match processParam store i p with
    | .error e => ([], some e)
    | .ok evs =>
      (evs ++ (runParams store i ps).1, (runParams store i ps).2)

/-- The outer loop, iterating positions `i, i+1, ...` for `fuel` more
steps; each completed position ends with the `time.sleep(0.03)` event. -/
def playbackLoop (store : DataStore) (i : Nat) : Nat → List Event × Option PyError
  | 0 => ([], none)
  | fuel + 1 =>
    match (runParams store i paramNames).2 with
    | some e => ((runParams store i paramNames).1, some e)
    | none =>
      ((runParams store i paramNames).1
          ++ Event.sleep :: (playbackLoop store (i + 1) fuel).1,
        (playbackLoop store (i + 1) fuel).2)

/-- Model of `for i in range(len(data_store['wind'])): ...`: the playback loop,
driven by the length of the wind record list (`KeyError` when the fetch
skipped `wind`). -/
def playback (store : DataStore) : List Event × Option PyError :=
  match lookupStore store "wind" with
  | none => ([], some (.keyError "wind"))
  | some wind => playbackLoop store 0 wind.length

/-- Count of `append` events in a trace. -/
def countAppends (evs : List Event) : Nat :=
  (evs.filter fun ev => match ev with | .append _ _ _ => true | _ => false).length

/-- Count of `sleep` events in a trace. -/
def countSleeps (evs : List Event) : Nat :=
  (evs.filter fun ev => match ev with | .sleep => true | _ => false).length

/-- Events of a trace that append a point to the given parameter's series. -/
def appendsOf (param : String) (evs : List Event) : List Event :=
  evs.filter fun ev =>
    match ev with
    | .append p _ _ => p = param
    | _ => false

/-- Events of a trace that log a missing-value skip (for any parameter). -/
def skipsOf (evs : List Event) : List Event :=
  evs.filter fun ev =>
    match ev with
    | .skip _ _ => true
    | _ => false

/-- The finite value of a successful `float(s)` call (0 when the call does
not yield a finite value; a readability helper for concrete statements). -/
def pyVal (s : String) : ℚ :=
  match pyFloat s with
  | .ok (.finite q) => q
  | _ => 0

/-- Does the record at hand let the loop body run without raising: the
field lookup succeeds and the value string is empty (skip) or converts. -/
def entryOK (param : String) (e : Entry) : Bool :=
  match valueStrFor param e with
  | .error _ => false
  | .ok vs => vs == "" || (pyFloat vs).isOk

/-- Is the parameter present with exactly `n` records, all processable? -/
def seriesOK (store : DataStore) (n : Nat) (p : String) : Bool :=
  match lookupStore store p with
  | some s => s.length == n && s.all fun e => entryOK p e
  | none => false

/-- Length of the wind series (0 when `wind` is absent); the quantity
`len(data_store['wind'])` that drives the playback loop. -/
def windLen (store : DataStore) : Nat :=
  match lookupStore store "wind" with
  | some w => w.length
  | none => 0

/-- A Dataset matching the spec's renderer test: `wind` holds one valid
record and one empty-valued record; the five other parameters hold valid
`v` records at the same two instants. -/
def windMissingStore : DataStore :=
  [("wind", [{ t := 1728345600000000000, s := some "2.5" },
             { t := 1728345960000000000, s := some "" }]),
   ("air_pressure", [{ t := 1728345600000000000, v := some "1013.2" },
                     { t := 1728345960000000000, v := some "1013.1" }]),
   ("water_level", [{ t := 1728345600000000000, v := some "0.5" },
                    { t := 1728345960000000000, v := some "0.6" }]),
   ("tide_predictions", [{ t := 1728345600000000000, v := some "0.4" },
                         { t := 1728345960000000000, v := some "0.5" }]),
   ("water_temperature", [{ t := 1728345600000000000, v := some "25.1" },
                          { t := 1728345960000000000, v := some "25.0" }]),
   ("air_temperature", [{ t := 1728345600000000000, v := some "24.3" },
                        { t := 1728345960000000000, v := some "24.1" }])]

/-- Responses in which `air_pressure` has neither a `data` nor a
`predictions` key and every other parameter has one valid record. -/
def skipResponses : List (String × Response) :=
  [("wind", { data := some [{ t := 150, s := some "2.5" }] }),
   ("air_pressure", {}),
   ("water_level", { data := some [{ t := 100, v := some "0.5" }] }),
   ("tide_predictions", { predictions := some [{ t := 120, v := some "0.4" }] }),
   ("water_temperature", { data := some [{ t := 130, v := some "25.1" }] }),
   ("air_temperature", { data := some [{ t := 140, v := some "24.0" }] })]

/-- Responses in which all six parameters have two valid records. -/
def goodResponses : List (String × Response) :=
  [("wind", { data := some [{ t := 100, s := some "2.5" },
                            { t := 200, s := some "3.1" }] }),
   ("air_pressure", { data := some [{ t := 100, v := some "1013.2" },
                                    { t := 200, v := some "1013.1" }] }),
   ("water_level", { data := some [{ t := 100, v := some "0.5" },
                                   { t := 200, v := some "0.6" }] }),
   ("tide_predictions", { predictions := some [{ t := 100, v := some "0.4" },
                                               { t := 200, v := some "0.5" }] }),
   ("water_temperature", { data := some [{ t := 100, v := some "25.1" },
                                         { t := 200, v := some "25.0" }] }),
   ("air_temperature", { data := some [{ t := 100, v := some "24.3" },
                                       { t := 200, v := some "24.1" }] })]

/-! ### Helper lemmas: folds computing `min`/`max` of a Python list -/

theorem foldl_min_le_start {α : Type} [LinearOrder α] (a : α) (l : List α) :
    l.foldl min a ≤ a := by
  induction l generalizing a with
  | nil => exact le_refl a
  | cons x xs ih => exact le_trans (ih (min a x)) (min_le_left a x)

theorem foldl_min_le_mem {α : Type} [LinearOrder α] (a : α) (l : List α) :
    ∀ x ∈ l, l.foldl min a ≤ x := by
  induction l generalizing a with
  | nil => intro x hx; cases hx
  | cons y ys ih =>
    intro x hx
    cases hx with
    | head => exact le_trans (foldl_min_le_start (min a y) ys) (min_le_right a y)
    | tail _ hx => exact ih (min a y) x hx

theorem foldl_min_eq_or_mem {α : Type} [LinearOrder α] (a : α) (l : List α) :
    l.foldl min a = a ∨ l.foldl min a ∈ l := by
  induction l generalizing a with
  | nil => exact Or.inl rfl
  | cons y ys ih =>
    rcases ih (min a y) with h | h
    · rcases min_cases a y with ⟨hm, _⟩ | ⟨hm, _⟩
      · exact Or.inl (by rw [List.foldl_cons, h, hm])
      · exact Or.inr (by rw [List.foldl_cons, h, hm]; exact List.mem_cons_self y ys)
    · exact Or.inr (List.mem_cons_of_mem y h)

theorem le_foldl_max_start {α : Type} [LinearOrder α] (a : α) (l : List α) :
    a ≤ l.foldl max a := by
  induction l generalizing a with
  | nil => exact le_refl a
  | cons x xs ih => exact le_trans (le_max_left a x) (ih (max a x))

theorem mem_le_foldl_max {α : Type} [LinearOrder α] (a : α) (l : List α) :
    ∀ x ∈ l, x ≤ l.foldl max a := by
  induction l generalizing a with
  | nil => intro x hx; cases hx
  | cons y ys ih =>
    intro x hx
    cases hx with
    | head => exact le_trans (le_max_right a y) (le_foldl_max_start (max a y) ys)
    | tail _ hx => exact ih (max a y) x hx

theorem foldl_max_eq_or_mem {α : Type} [LinearOrder α] (a : α) (l : List α) :
    l.foldl max a = a ∨ l.foldl max a ∈ l := by
  induction l generalizing a with
  | nil => exact Or.inl rfl
  | cons y ys ih =>
    rcases ih (max a y) with h | h
    · rcases max_cases a y with ⟨hm, _⟩ | ⟨hm, _⟩
      · exact Or.inl (by rw [List.foldl_cons, h, hm])
      · exact Or.inr (by rw [List.foldl_cons, h, hm]; exact List.mem_cons_self y ys)
    · exact Or.inr (List.mem_cons_of_mem y h)

/-! ### Helper lemmas: association-list lookup -/

theorem lookupStore_append_left {s t : DataStore} {p : String}
    {v : List Entry} (h : lookupStore s p = some v) :
    lookupStore (s ++ t) p = some v := by
  induction s with
  | nil => simp [lookupStore] at h
  | cons hd tl ih =>
    obtain ⟨k, w⟩ := hd
    by_cases hk : k = p
    · simpa [lookupStore, hk] using (by simpa [lookupStore, hk] using h)
    · simp only [lookupStore, hk, List.cons_append, if_false] at h ⊢
      exact ih h

theorem lookupStore_append_right {s t : DataStore} {p : String}
    (h : lookupStore s p = none) :
    lookupStore (s ++ t) p = lookupStore t p := by
  induction s with
  | nil => rfl
  | cons hd tl ih =>
    obtain ⟨k, w⟩ := hd
    by_cases hk : k = p
    · simp [lookupStore, hk] at h
    · simp only [lookupStore, hk, List.cons_append, if_false] at h ⊢
      exact ih h

theorem lookupStore_single_ne {s : DataStore} {q p : String}
    {v : List Entry} (h : q ≠ p) :
    lookupStore (s ++ [(q, v)]) p = lookupStore s p := by
  cases hs : lookupStore s p with
  | some w => exact lookupStore_append_left hs
  | none => rw [lookupStore_append_right hs]; simp [lookupStore, h]

theorem lookupStore_mem {s : DataStore} {p : String} {v : List Entry}
    (h : lookupStore s p = some v) : (p, v) ∈ s := by
  induction s with
  | nil => simp [lookupStore] at h
  | cons hd tl ih =>
    obtain ⟨k, w⟩ := hd
    by_cases hk : k = p
    · simp only [lookupStore, hk, if_true] at h
      cases h
      exact hk ▸ List.mem_cons_self _ _
    · simp only [lookupStore, hk, if_false] at h
      exact List.mem_cons_of_mem _ (ih h)

/-! ### Helper lemmas: the fetch loop -/

theorem fetch_pool_flatMap (rs : List (String × Response)) (st : FetchState)
    (h : st.timestamps = st.data_store.flatMap fun pr => pr.2.map (·.t)) :
    (rs.foldl fetchStep st).timestamps
      = (rs.foldl fetchStep st).data_store.flatMap fun pr => pr.2.map (·.t) := by
  induction rs generalizing st with
  | nil => exact h
  | cons pr rest ih =>
    apply ih
    obtain ⟨param, resp⟩ := pr
    cases hd : resp.data with
    | some recs =>
      simp [fetchStep, hd, h, List.flatMap_append]
    | none =>
      cases hp : resp.predictions with
      | some recs =>
        simp [fetchStep, hd, hp, h, List.flatMap_append]
      | none =>
        simp [fetchStep, hd, hp, h]

theorem fetchAll_pool (rs : List (String × Response)) :
    (fetchAll rs).timestamps
      = (fetchAll rs).data_store.flatMap fun pr => pr.2.map (·.t) :=
  fetch_pool_flatMap rs ⟨[], [], []⟩ rfl

theorem fetch_lookup_of_not_mem (rs : List (String × Response))
    (st : FetchState) (p : String) (hp : p ∉ rs.map Prod.fst) :
    lookupStore (rs.foldl fetchStep st).data_store p
      = lookupStore st.data_store p := by
  induction rs generalizing st with
  | nil => rfl
  | cons pr rest ih =>
    obtain ⟨q, resp⟩ := pr
    simp only [List.map_cons, List.mem_cons, not_or] at hp
    obtain ⟨hq, hrest⟩ := hp
    rw [List.foldl_cons, ih _ hrest]
    cases hd : resp.data with
    | some recs => simp [fetchStep, hd, lookupStore_single_ne (Ne.symm hq)]
    | none =>
      cases hpp : resp.predictions with
      | some recs => simp [fetchStep, hd, hpp, lookupStore_single_ne (Ne.symm hq)]
      | none => simp [fetchStep, hd, hpp]

theorem fetch_errorLog_mono (rs : List (String × Response)) (st : FetchState)
    (x : String) (h : x ∈ st.errorLog) :
    x ∈ (rs.foldl fetchStep st).errorLog := by
  induction rs generalizing st with
  | nil => exact h
  | cons pr rest ih =>
    apply ih
    obtain ⟨param, resp⟩ := pr
    cases hd : resp.data with
    | some recs => simpa [fetchStep, hd] using h
    | none =>
      cases hpp : resp.predictions with
      | some recs => simpa [fetchStep, hd, hpp] using h
      | none =>
        simp [fetchStep, hd, hpp]
        exact Or.inl h

theorem fetch_lookup_stored (rs : List (String × Response)) (st : FetchState)
    (hnd : (rs.map Prod.fst).Nodup) (q : String) (r : Response)
    (recs : List Entry) (hq : (q, r) ∈ rs)
    (hnone : lookupStore st.data_store q = none)
    (hrecs : r.data = some recs ∨ (r.data = none ∧ r.predictions = some recs)) :
    lookupStore (rs.foldl fetchStep st).data_store q = some recs := by
  induction rs generalizing st with
  | nil => cases hq
  | cons pr rest ih =>
    obtain ⟨q0, r0⟩ := pr
    simp only [List.map_cons, List.nodup_cons] at hnd
    obtain ⟨hq0, hnd'⟩ := hnd
    rcases List.mem_cons.mp hq with heq | hmem
    · injection heq with h1 h2
      subst h1; subst h2
      rw [List.foldl_cons, fetch_lookup_of_not_mem _ _ _ hq0]
      rcases hrecs with hd | ⟨hd, hpp⟩
      · simp [fetchStep, hd, lookupStore_append_right hnone, lookupStore]
      · simp [fetchStep, hd, hpp, lookupStore_append_right hnone, lookupStore]
    · have hq0q : q0 ≠ q := by
        intro h
        rw [h] at hq0
        exact hq0 (List.mem_map.mpr ⟨(q, r), hmem, rfl⟩)
      have hnone2 : lookupStore (fetchStep st (q0, r0)).data_store q = none := by
        cases hd0 : r0.data with
        | some recs0 => simp [fetchStep, hd0, lookupStore_single_ne hq0q, hnone]
        | none =>
          cases hpp0 : r0.predictions with
          | some recs0 => simp [fetchStep, hd0, hpp0, lookupStore_single_ne hq0q, hnone]
          | none => simp [fetchStep, hd0, hpp0, hnone]
      exact ih _ hnd' hmem hnone2

theorem fetch_skip_lookup (rs : List (String × Response)) (st : FetchState)
    (hnd : (rs.map Prod.fst).Nodup) (p : String) (resp : Response)
    (hmem : (p, resp) ∈ rs) (hd : resp.data = none)
    (hp : resp.predictions = none)
    (hnone : lookupStore st.data_store p = none) :
    lookupStore (rs.foldl fetchStep st).data_store p = none
    ∧ p ∈ (rs.foldl fetchStep st).errorLog := by
  induction rs generalizing st with
  | nil => cases hmem
  | cons pr rest ih =>
    obtain ⟨q0, r0⟩ := pr
    simp only [List.map_cons, List.nodup_cons] at hnd
    obtain ⟨hq0, hnd'⟩ := hnd
    rcases List.mem_cons.mp hmem with heq | hmem'
    · injection heq with h1 h2
      subst h1; subst h2
      rw [List.foldl_cons]
      constructor
      · rw [fetch_lookup_of_not_mem _ _ _ hq0]
        simpa [fetchStep, hd, hp] using hnone
      · apply fetch_errorLog_mono
        simp [fetchStep, hd, hp]
    · have hq0q : q0 ≠ p := by
        intro h
        rw [h] at hq0
        exact hq0 (List.mem_map.mpr ⟨(p, resp), hmem', rfl⟩)
      have hnone2 : lookupStore (fetchStep st (q0, r0)).data_store p = none := by
        cases hd0 : r0.data with
        | some recs0 => simp [fetchStep, hd0, lookupStore_single_ne hq0q, hnone]
        | none =>
          cases hpp0 : r0.predictions with
          | some recs0 => simp [fetchStep, hd0, hpp0, lookupStore_single_ne hq0q, hnone]
          | none => simp [fetchStep, hd0, hpp0, hnone]
      exact ih _ hnd' hmem' hnone2

/-! ### Helper lemmas: the playback loop -/

theorem processParam_ok_cases (store : DataStore) (i : Nat) (q : String)
    (evs : List Event) (h : processParam store i q = .ok evs) :
    ∃ series entry, lookupStore store q = some series
      ∧ series.get? i = some entry
      ∧ ((∃ y, evs = [Event.append q (msOf entry.t) y])
          ∨ evs = [Event.skip q entry.t]) := by
  unfold processParam at h
  cases hs : lookupStore store q with
  | none => simp only [hs] at h; exact Except.noConfusion h
  | some series =>
    simp only [hs] at h
    cases hg : series.get? i with
    | none => simp only [hg] at h; exact Except.noConfusion h
    | some entry =>
      simp only [hg] at h
      refine ⟨series, entry, rfl, hg, ?_⟩
      cases hv : valueStrFor q entry with
      | error e => simp only [hv] at h; exact Except.noConfusion h
      | ok vs =>
        simp only [hv] at h
        by_cases hne : vs = ""
        · subst hne
          simp only [ne_eq, not_true_eq_false, if_false, Except.ok.injEq] at h
          exact Or.inr h.symm
        · rw [if_pos hne] at h
          cases hf : pyFloat vs with
          | error s => simp only [hf] at h; exact Except.noConfusion h
          | ok y =>
            simp only [hf, Except.ok.injEq] at h
            exact Or.inl ⟨y, h.symm⟩

theorem processParam_ok_of_entryOK (store : DataStore) (i : Nat) (p : String)
    (series : List Entry) (hs : lookupStore store p = some series)
    (hi : i < series.length)
    (he : entryOK p (series.get ⟨i, hi⟩) = true) :
    ∃ ev, processParam store i p = .ok [ev] := by
  unfold processParam
  simp only [hs, List.get?_eq_get hi]
  unfold entryOK at he
  cases hv : valueStrFor p (series.get ⟨i, hi⟩) with
  | error e => simp only [hv] at he; exact absurd he (by simp)
  | ok vs =>
    simp only [hv] at he
    simp only [hv]
    by_cases hne : vs = ""
    · subst hne
      simp only [ne_eq, not_true_eq_false, if_false]
      exact ⟨_, rfl⟩
    · rw [if_pos hne]
      cases hf : pyFloat vs with
      | error s =>
        rw [hf] at he
        simp [Except.isOk, Except.toBool, hne] at he
      | ok y => exact ⟨_, rfl⟩

theorem valueStrFor_error_keyError (p : String) (e : Entry) (err : PyError)
    (h : valueStrFor p e = .error err) : ∃ k, err = PyError.keyError k := by
  unfold valueStrFor at h
  by_cases h1 : p = "wind"
  · rw [if_pos h1] at h
    cases hs : e.s with
    | some s => rw [hs] at h; exact Except.noConfusion h
    | none => rw [hs] at h; exact ⟨"s", (Except.error.inj h).symm⟩
  · rw [if_neg h1] at h
    by_cases h2 : p ∈ nonWindParams
    · rw [if_pos h2] at h
      cases hv : e.v with
      | some v => rw [hv] at h; exact Except.noConfusion h
      | none => rw [hv] at h; exact ⟨"v", (Except.error.inj h).symm⟩
    · rw [if_neg h2] at h
      exact ⟨"value_str unbound", (Except.error.inj h).symm⟩

theorem processParam_indexError_oob (store : DataStore) (i : Nat) (p : String)
    (h : processParam store i p = .error PyError.indexError) :
    ∃ series, lookupStore store p = some series ∧ series.get? i = none := by
  unfold processParam at h
  cases hs : lookupStore store p with
  | none =>
    simp only [hs, Except.error.injEq] at h
    exact PyError.noConfusion h
  | some series =>
    simp only [hs] at h
    cases hg : series.get? i with
    | none => exact ⟨series, rfl, hg⟩
    | some entry =>
      simp only [hg] at h
      cases hv : valueStrFor p entry with
      | error e =>
        simp only [hv, Except.error.injEq] at h
        obtain ⟨k, hk⟩ := valueStrFor_error_keyError p entry e hv
        rw [h] at hk
        exact PyError.noConfusion hk
      | ok vs =>
        simp only [hv] at h
        by_cases hne : vs = ""
        · rw [if_neg (by simpa using hne)] at h
          exact Except.noConfusion h
        · rw [if_pos hne] at h
          cases hf : pyFloat vs with
          | error s =>
            simp only [hf, Except.error.injEq] at h
            exact PyError.noConfusion h
          | ok y =>
            simp only [hf] at h
            exact Except.noConfusion h

theorem runParams_ok (store : DataStore) (i : Nat) (ps : List String)
    (h : ∀ p ∈ ps, ∃ ev, processParam store i p = .ok [ev]) :
    (runParams store i ps).2 = none
    ∧ (runParams store i ps).1.length = ps.length := by
  induction ps with
  | nil => exact ⟨rfl, rfl⟩
  | cons q qs ih =>
    obtain ⟨ev, hev⟩ := h q (List.mem_cons_self q qs)
    have ih2 := ih fun p hp => h p (List.mem_cons_of_mem q hp)
    simp only [runParams, hev]
    exact ⟨ih2.1, by simp [ih2.2]⟩

theorem runParams_err_of_mem (store : DataStore) (i : Nat) (ps : List String)
    (p : String) (hp : p ∈ ps) (e : PyError)
    (he : processParam store i p = .error e) :
    ((runParams store i ps).2).isSome = true := by
  induction ps with
  | nil => cases hp
  | cons q qs ih =>
    rcases List.mem_cons.mp hp with heq | hmem
    · subst heq
      simp [runParams, he]
    · cases hq : processParam store i q with
      | error e0 => simp [runParams, hq]
      | ok evs =>
        simp only [runParams, hq]
        exact ih hmem

theorem runParams_no_idx (store : DataStore) (i : Nat) (ps : List String)
    (h : ∀ p ∈ ps, processParam store i p ≠ .error PyError.indexError) :
    (runParams store i ps).2 ≠ some PyError.indexError := by
  induction ps with
  | nil => simp [runParams]
  | cons q qs ih =>
    cases hq : processParam store i q with
    | error e =>
      simp only [runParams, hq]
      intro hcon
      apply h q (List.mem_cons_self q qs)
      rw [hq, Option.some.inj hcon]
    | ok evs =>
      simp only [runParams, hq]
      exact ih fun p hp => h p (List.mem_cons_of_mem q hp)

theorem append_mem_runParams (store : DataStore) (i : Nat) (ps : List String)
    (p : String) (x : ℚ) (y : PyFloat)
    (h : Event.append p x y ∈ (runParams store i ps).1) :
    ∃ series entry, lookupStore store p = some series
      ∧ entry ∈ series ∧ x = msOf entry.t := by
  induction ps with
  | nil => cases h
  | cons q qs ih =>
    cases hq : processParam store i q with
    | error e => simp [runParams, hq] at h
    | ok evs =>
      simp only [runParams, hq] at h
      rcases List.mem_append.mp h with hl | hr
      · obtain ⟨series, entry, hs, hg, hcases⟩ :=
          processParam_ok_cases store i q evs hq
        rcases hcases with ⟨y0, hev⟩ | hev
        · rw [hev] at hl
          have h3 := List.mem_singleton.mp hl
          injection h3 with hp2 hx hy
          exact ⟨series, entry, hp2 ▸ hs, List.get?_mem hg, hx⟩
        · rw [hev] at hl
          have h3 := List.mem_singleton.mp hl
          exact Event.noConfusion h3
      · exact ih hr

theorem countSleeps_append (a b : List Event) :
    countSleeps (a ++ b) = countSleeps a + countSleeps b := by
  simp [countSleeps, List.filter_append]

theorem countSleeps_runParams (store : DataStore) (i : Nat) (ps : List String) :
    countSleeps (runParams store i ps).1 = 0 := by
  induction ps with
  | nil => rfl
  | cons q qs ih =>
    cases hq : processParam store i q with
    | error e => simp [runParams, hq, countSleeps]
    | ok evs =>
      simp only [runParams, hq]
      obtain ⟨series, entry, _, _, hcases⟩ :=
        processParam_ok_cases store i q evs hq
      rcases hcases with ⟨y0, hev⟩ | hev <;>
        · subst hev
          rw [countSleeps_append, ih]
          rfl

theorem countAppends_le_length (evs : List Event) :
    countAppends evs ≤ evs.length :=
  List.length_filter_le _ evs

theorem playbackLoop_eq_of_ok (store : DataStore) (fuel : Nat) :
    ∀ i : Nat,
      (∀ j : Nat, j < fuel → (runParams store (i + j) paramNames).2 = none) →
      playbackLoop store i fuel
        = ((List.range fuel).flatMap
            (fun j => (runParams store (i + j) paramNames).1 ++ [Event.sleep]),
           none) := by
  induction fuel with
  | zero => intro i _; rfl
  | succ fuel ih =>
    intro i h
    have h0 : (runParams store (i + 0) paramNames).2 = none :=
      h 0 (Nat.succ_pos fuel)
    rw [Nat.add_zero] at h0
    have hrest := ih (i + 1) fun j hj => by
      have hstep := h (j + 1) (Nat.succ_lt_succ hj)
      rwa [show i + (j + 1) = i + 1 + j by omega] at hstep
    simp only [playbackLoop, h0, hrest]
    rw [Prod.mk.injEq]
    constructor
    · rw [List.range_succ_eq_map, List.flatMap_cons, List.flatMap_map]
      have hfun :
          (fun j => (runParams store (i + Nat.succ j) paramNames).1
              ++ [Event.sleep])
            = fun j => (runParams store (i + 1 + j) paramNames).1
              ++ [Event.sleep] := by
        funext j
        rw [show i + Nat.succ j = i + 1 + j by omega]
      rw [hfun, List.append_assoc, List.singleton_append]
      norm_num
    · rfl

theorem playbackLoop_no_idx (store : DataStore) (fuel : Nat) :
    ∀ i : Nat,
      (∀ j : Nat, j < i + fuel →
        (runParams store j paramNames).2 ≠ some PyError.indexError) →
      (playbackLoop store i fuel).2 ≠ some PyError.indexError := by
  induction fuel with
  | zero => intro i _; simp [playbackLoop]
  | succ fuel ih =>
    intro i h
    cases hr : (runParams store i paramNames).2 with
    | some e =>
      simp only [playbackLoop, hr]
      intro hcon
      apply h i (by omega)
      rw [hr, Option.some.inj hcon]
    | none =>
      simp only [playbackLoop, hr]
      exact ih (i + 1) fun j hj => h j (by omega)

theorem append_mem_playbackLoop (store : DataStore) (fuel : Nat) :
    ∀ i : Nat, ∀ p : String, ∀ x : ℚ, ∀ y : PyFloat,
      Event.append p x y ∈ (playbackLoop store i fuel).1 →
      ∃ series entry, lookupStore store p = some series
        ∧ entry ∈ series ∧ x = msOf entry.t := by
  induction fuel with
  | zero => intro i p x y h; cases h
  | succ fuel ih =>
    intro i p x y h
    cases hr : (runParams store i paramNames).2 with
    | some e =>
      simp only [playbackLoop, hr] at h
      exact append_mem_runParams store i paramNames p x y h
    | none =>
      simp only [playbackLoop, hr] at h
      rcases List.mem_append.mp h with hl | hcons
      · exact append_mem_runParams store i paramNames p x y hl
      · rcases List.mem_cons.mp hcons with heq | htail
        · exact Event.noConfusion heq
        · exact ih (i + 1) p x y htail

theorem countSleeps_playbackLoop_of_ok (store : DataStore) (fuel : Nat) :
    ∀ i : Nat,
      (∀ j : Nat, j < fuel → (runParams store (i + j) paramNames).2 = none) →
      countSleeps (playbackLoop store i fuel).1 = fuel := by
  induction fuel with
  | zero => intro i _; rfl
  | succ fuel ih =>
    intro i h
    have h0 : (runParams store (i + 0) paramNames).2 = none :=
      h 0 (Nat.succ_pos fuel)
    rw [Nat.add_zero] at h0
    have hrest := ih (i + 1) fun j hj => by
      have hstep := h (j + 1) (Nat.succ_lt_succ hj)
      rwa [show i + (j + 1) = i + 1 + j by omega] at hstep
    simp only [playbackLoop, h0]
    rw [countSleeps_append, countSleeps_runParams]
    have : countSleeps (Event.sleep :: (playbackLoop store (i + 1) fuel).1)
        = countSleeps (playbackLoop store (i + 1) fuel).1 + 1 := by
      simp [countSleeps, List.filter_cons]
    rw [this, hrest]
    omega

/-! ### Claim theorems -/

/-- C1: with six parameters each having `n` index-aligned processable
records in the Dataset, the playback loop performs exactly `n` iterations,
where `n` is the length of the wind series; each iteration appends at most
6 points (one per parameter, fewer when values are missing) and ends with
the fixed ~30 ms sleep, including the final iteration. -/
theorem playback_iterations (store : DataStore) (n : Nat)
    (h : ∀ p ∈ paramNames, seriesOK store n p = true) :
    (∃ wind, lookupStore store "wind" = some wind ∧ wind.length = n)
    ∧ playback store
        = ((List.range n).flatMap
            (fun i => (runParams store i paramNames).1 ++ [Event.sleep]),
           none)
    ∧ countSleeps (playback store).1 = n
    ∧ ∀ i, i < n → countAppends (runParams store i paramNames).1 ≤ 6 := by
  have hw := h "wind" (by simp [paramNames])
  unfold seriesOK at hw
  cases hlw : lookupStore store "wind" with
  | none => rw [hlw] at hw; cases hw
  | some wind =>
    rw [hlw] at hw
    simp only [Bool.and_eq_true, beq_iff_eq] at hw
    obtain ⟨hlen, _⟩ := hw
    have hblocks : ∀ p ∈ paramNames, ∀ i, i < n →
        ∃ ev, processParam store i p = .ok [ev] := by
      intro p hp i hi
      have hsp := h p hp
      unfold seriesOK at hsp
      cases hls : lookupStore store p with
      | none => rw [hls] at hsp; cases hsp
      | some series =>
        rw [hls] at hsp
        simp only [Bool.and_eq_true, beq_iff_eq, List.all_eq_true] at hsp
        obtain ⟨hslen, hall⟩ := hsp
        have hi2 : i < series.length := by rw [hslen]; exact hi
        exact processParam_ok_of_entryOK store i p series hls hi2
          (hall _ (List.get_mem series i hi2))
    have hrun : ∀ i, i < n → (runParams store i paramNames).2 = none
        ∧ (runParams store i paramNames).1.length = paramNames.length :=
      fun i hi => runParams_ok store i paramNames
        (fun p hp => hblocks p hp i hi)
    have htrace : playback store
        = ((List.range n).flatMap
            (fun i => (runParams store i paramNames).1 ++ [Event.sleep]),
           none) := by
      have heq := playbackLoop_eq_of_ok store n 0
        (fun j hj => by simpa using (hrun j hj).1)
      simp only [Nat.zero_add] at heq
      simp only [playback, hlw, hlen, heq]
    refine ⟨⟨wind, rfl, hlen⟩, htrace, ?_, ?_⟩
    · have hcs := countSleeps_playbackLoop_of_ok store n 0
        (fun j hj => by simpa using (hrun j hj).1)
      simp only [playback, hlw, hlen]
      exact hcs
    · intro i hi
      calc countAppends (runParams store i paramNames).1
          ≤ (runParams store i paramNames).1.length :=
            countAppends_le_length _
        _ = paramNames.length := (hrun i hi).2
        _ ≤ 6 := by simp [paramNames]

/-- Witness for C1 at a concrete six-parameter Dataset with two records
per parameter: two sleeps, at most six appends in the first iteration. -/
theorem playback_iterations_witness :
    countSleeps (playback windMissingStore).1 = 2
    ∧ countAppends (runParams windMissingStore 0 paramNames).1 ≤ 6 :=
  ⟨(playback_iterations windMissingStore 2 (by decide)).2.2.1,
   (playback_iterations windMissingStore 2 (by decide)).2.2.2 0 (by norm_num)⟩

/-- C2: a fetched parameter whose response has neither a `data` nor a
`predictions` key is logged and skipped: the Dataset holds no entry for
it, the pool holds exactly the stored series' timestamps (so none of the
skipped parameter's), and the remaining parameters are stored — from the
`data` array when present, else from a present `predictions` array. -/
theorem fetch_skips_unexpected_shape (rs : List (String × Response))
    (p : String) (resp : Response) (hnd : (rs.map Prod.fst).Nodup)
    (hmem : (p, resp) ∈ rs) (hd : resp.data = none)
    (hp : resp.predictions = none) :
    lookupStore (fetchAll rs).data_store p = none
    ∧ p ∈ (fetchAll rs).errorLog
    ∧ (fetchAll rs).timestamps
        = (fetchAll rs).data_store.flatMap (fun pr => pr.2.map (·.t))
    ∧ (∀ q r recs, (q, r) ∈ rs → r.data = some recs →
        lookupStore (fetchAll rs).data_store q = some recs)
    ∧ (∀ q r recs, (q, r) ∈ rs → r.data = none → r.predictions = some recs →
        lookupStore (fetchAll rs).data_store q = some recs) := by
  obtain ⟨h1, h2⟩ := fetch_skip_lookup rs ⟨[], [], []⟩ hnd p resp hmem hd hp rfl
  refine ⟨h1, h2, fetchAll_pool rs, ?_, ?_⟩
  · intro q r recs hq hr
    exact fetch_lookup_stored rs ⟨[], [], []⟩ hnd q r recs hq rfl (Or.inl hr)
  · intro q r recs hq hr hpr
    exact fetch_lookup_stored rs ⟨[], [], []⟩ hnd q r recs hq rfl
      (Or.inr ⟨hr, hpr⟩)

/-- Witness for C2 at the concrete responses where `air_pressure` has an
unexpected shape: it is absent from the store and logged, while `wind`
(a `data` response) and `tide_predictions` (a `predictions` response) are
stored. -/
theorem fetch_skips_unexpected_shape_witness :
    lookupStore (fetchAll skipResponses).data_store "air_pressure" = none
    ∧ "air_pressure" ∈ (fetchAll skipResponses).errorLog :=
  ⟨(fetch_skips_unexpected_shape skipResponses "air_pressure" {}
      (by decide) (by decide) rfl rfl).1,
   (fetch_skips_unexpected_shape skipResponses "air_pressure" {}
      (by decide) (by decide) rfl rfl).2.1⟩

/-- C3: when the aggregation succeeds, every observation timestamp of
every stored series lies between `min_time` and `max_time`, and both
endpoints occur in the collected pool. -/
theorem aggregate_range_bounds (rs : List (String × Response))
    (mn mx : Int)
    (hagg : aggregateRange (fetchAll rs).timestamps = .ok (mn, mx)) :
    (∀ p series, lookupStore (fetchAll rs).data_store p = some series →
        ∀ e ∈ series, mn ≤ e.t ∧ e.t ≤ mx)
    ∧ mn ∈ (fetchAll rs).timestamps ∧ mx ∈ (fetchAll rs).timestamps := by
  cases hts : (fetchAll rs).timestamps with
  | nil => rw [hts] at hagg; exact Except.noConfusion hagg
  | cons t ts =>
    rw [hts] at hagg
    unfold aggregateRange at hagg
    obtain ⟨hmn, hmx⟩ := Prod.mk.inj (Except.ok.inj hagg)
    have hmem : ∀ u : Int, u ∈ (fetchAll rs).timestamps → mn ≤ u ∧ u ≤ mx := by
      intro u hu
      rw [hts] at hu
      rcases List.mem_cons.mp hu with rfl | hu2
      · exact ⟨hmn ▸ foldl_min_le_start u ts, hmx ▸ le_foldl_max_start u ts⟩
      · exact ⟨hmn ▸ foldl_min_le_mem t ts u hu2,
          hmx ▸ mem_le_foldl_max t ts u hu2⟩
    refine ⟨?_, ?_, ?_⟩
    · intro p series hs e he
      apply hmem
      rw [fetchAll_pool rs]
      exact List.mem_flatMap.mpr
        ⟨(p, series), lookupStore_mem hs, List.mem_map.mpr ⟨e, he, rfl⟩⟩
    · rcases foldl_min_eq_or_mem t ts with h | h
      · rw [← hmn, h]; exact List.mem_cons_self t ts
      · rw [← hmn]; exact List.mem_cons_of_mem t h
    · rcases foldl_max_eq_or_mem t ts with h | h
      · rw [← hmx, h]; exact List.mem_cons_self t ts
      · rw [← hmx]; exact List.mem_cons_of_mem t h

/-- Witness for C3 at the concrete six-parameter responses: the bounds
hold for the first wind record and both endpoints occur in the pool. -/
theorem aggregate_range_bounds_witness :
    (100 ≤ (100 : Int) ∧ (100 : Int) ≤ 200)
    ∧ (100 : Int) ∈ (fetchAll goodResponses).timestamps
    ∧ (200 : Int) ∈ (fetchAll goodResponses).timestamps :=
  ⟨(aggregate_range_bounds goodResponses 100 200 (by decide)).1
      "wind" [{ t := 100, s := some "2.5" }, { t := 200, s := some "3.1" }]
      (by decide) { t := 100, s := some "2.5" } (by decide),
   (aggregate_range_bounds goodResponses 100 200 (by decide)).2.1,
   (aggregate_range_bounds goodResponses 100 200 (by decide)).2.2⟩

/-- C6: the aggregation fails (with the `EmptyDatasetError` of the spec,
Python's `ValueError` on `min([])`) precisely when no observations exist
across all stored parameters; with at least one observation it returns a
`(min_time, max_time)` pair. -/
theorem aggregate_empty_iff (rs : List (String × Response)) :
    (aggregateRange (fetchAll rs).timestamps = .error "EmptyDatasetError"
      ↔ ∀ pr ∈ (fetchAll rs).data_store, pr.2 = [])
    ∧ ((∃ pr ∈ (fetchAll rs).data_store, pr.2 ≠ []) →
        ∃ mn mx, aggregateRange (fetchAll rs).timestamps = .ok (mn, mx)) := by
  have hpool := fetchAll_pool rs
  have hnil : (fetchAll rs).timestamps = []
      ↔ ∀ pr ∈ (fetchAll rs).data_store, pr.2 = [] := by
    rw [hpool, List.flatMap_eq_nil_iff]
    constructor
    · intro h pr hpr
      exact List.map_eq_nil_iff.mp (h pr hpr)
    · intro h pr hpr
      rw [h pr hpr]; rfl
  constructor
  · rw [← hnil]
    cases hts : (fetchAll rs).timestamps with
    | nil => simp [aggregateRange]
    | cons t ts =>
      simp only [aggregateRange]
      constructor
      · intro h; exact Except.noConfusion h
      · intro h; exact List.noConfusion h
  · intro ⟨pr, hpr, hne⟩
    cases hts : (fetchAll rs).timestamps with
    | nil =>
      exfalso
      exact hne (hnil.mp hts pr hpr)
    | cons t ts => exact ⟨_, _, rfl⟩

/-- Witness for C6: the concrete responses have a non-empty wind series,
so the aggregation returns a pair. -/
theorem aggregate_empty_iff_witness :
    ∃ mn mx,
      aggregateRange (fetchAll goodResponses).timestamps = .ok (mn, mx) :=
  (aggregate_empty_iff goodResponses).2
    ⟨("wind", [{ t := 100, s := some "2.5" }, { t := 200, s := some "3.1" }]),
     by decide, by decide⟩

/-- C4 counterexample: a non-empty value string need not convert to a
finite float — `float("inf")` succeeds with a non-finite value, so the
loop appends a non-finite point, and `float("abc")` raises `ValueError`
rather than succeeding. -/
theorem value_not_always_finite :
    pyFloat "inf" = .ok (PyFloat.infinity false)
    ∧ PyFloat.isFinite (PyFloat.infinity false) = false
    ∧ pyFloat "abc" = .error "abc"
    ∧ processParam [("wind", [{ t := 0, s := some "inf" }])] 0 "wind"
        = .ok [Event.append "wind" (msOf 0) (PyFloat.infinity false)]
    ∧ processParam [("wind", [{ t := 0, s := some "abc" }])] 0 "wind"
        = .error (PyError.valueError "abc") :=
  ⟨by decide, rfl, by decide, rfl, by decide⟩

/-- C4 amended: the value is skipped exactly when the source string is
empty; a non-empty string is passed to `float`, whose successful result
(finite or not) is appended as is, and whose failure raises `ValueError`
(terminating the run) instead of skipping. -/
theorem value_guard_amended (store : DataStore) (p : String) (i : Nat)
    (series : List Entry) (entry : Entry) (vs : String)
    (hs : lookupStore store p = some series)
    (hg : series.get? i = some entry)
    (hv : valueStrFor p entry = .ok vs) :
    (processParam store i p = .ok [Event.skip p entry.t] ↔ vs = "")
    ∧ (∀ y, pyFloat vs = .ok y → vs ≠ "" →
        processParam store i p = .ok [Event.append p (msOf entry.t) y])
    ∧ (∀ s, pyFloat vs = .error s → vs ≠ "" →
        processParam store i p = .error (PyError.valueError s)) := by
  unfold processParam
  simp only [hs, hg, hv]
  refine ⟨?_, ?_, ?_⟩
  · constructor
    · intro h
      by_cases hne : vs = ""
      · exact hne
      · rw [if_pos hne] at h
        cases hf : pyFloat vs with
        | ok y => rw [hf] at h; simp at h
        | error s => rw [hf] at h; exact Except.noConfusion h
    · intro h
      subst h
      simp only [ne_eq, not_true_eq_false, if_false]
  · intro y hy hne
    rw [if_pos hne, hy]
  · intro s hserr hne
    rw [if_pos hne, hserr]

/-- Witness for the amended C4 at the record value `"2.5"`: the point is
appended with the parsed value. -/
theorem value_guard_amended_witness :
    processParam [("wind", [{ t := 0, s := some "2.5" }])] 0 "wind"
      = .ok [Event.append "wind" (msOf 0) (PyFloat.finite (pyVal "2.5"))] :=
  (value_guard_amended [("wind", [{ t := 0, s := some "2.5" }])] "wind" 0
      [{ t := 0, s := some "2.5" }] { t := 0, s := some "2.5" } "2.5"
      rfl rfl rfl).2.1 (PyFloat.finite (pyVal "2.5")) rfl (by decide)

/-- C5: on the Dataset whose wind records are
`[(T0, "2.5"), (T1, "")]` (other parameters reading their `v` field),
the renderer appends exactly one wind point — at T0 with value 2.5 — and
logs exactly one missing-value skip, for wind at T1. -/
theorem renderer_wind_missing_value :
    appendsOf "wind" (playback windMissingStore).1
      = [Event.append "wind" (msOf 1728345600000000000)
          (PyFloat.finite (pyVal "2.5"))]
    ∧ skipsOf (playback windMissingStore).1
      = [Event.skip "wind" 1728345960000000000]
    ∧ pyVal "2.5" = 5 / 2
    ∧ msOf 1728345600000000000 = 1728345600000
    ∧ (playback windMissingStore).2 = none := by
  refine ⟨rfl, by decide, ?_, ?_, by decide⟩
  · have h : pyVal "2.5" = ((25 : ℕ) : ℚ) / (10 : ℚ) ^ (1 : ℕ) := rfl
    rw [h]
    norm_num
  · unfold msOf
    norm_num

/-- C7 counterexample: with `air_pressure` skipped for unexpected shape
(and wind non-empty), the playback loop does not run to completion — it
raises `KeyError` on the missing Dataset entry at the first position. -/
theorem downstream_crash_on_skip :
    lookupStore (fetchAll skipResponses).data_store "air_pressure" = none
    ∧ (playback (fetchAll skipResponses).data_store).2
        = some (PyError.keyError "air_pressure") :=
  ⟨by decide, by decide⟩

/-- C7 amended: after a skip the Time-Range Aggregator still completes
whenever any observation remains, but the Playback Renderer crashes — with
`KeyError` on `wind` when wind itself was skipped, and with some error at
the first position when any parameter is missing while the wind series is
non-empty. -/
theorem downstream_after_skip_amended (rs : List (String × Response)) :
    ((fetchAll rs).timestamps ≠ [] →
      ∃ mn mx, aggregateRange (fetchAll rs).timestamps = .ok (mn, mx))
    ∧ (lookupStore (fetchAll rs).data_store "wind" = none →
        playback (fetchAll rs).data_store
          = ([], some (PyError.keyError "wind")))
    ∧ (∀ w, lookupStore (fetchAll rs).data_store "wind" = some w →
        w ≠ [] →
        (∃ p ∈ paramNames,
          lookupStore (fetchAll rs).data_store p = none) →
        ((playback (fetchAll rs).data_store).2).isSome = true) := by
  refine ⟨?_, ?_, ?_⟩
  · intro hne
    cases hts : (fetchAll rs).timestamps with
    | nil => exact absurd hts hne
    | cons t ts => exact ⟨_, _, rfl⟩
  · intro hlw
    simp [playback, hlw]
  · intro w hlw hwne ⟨p, hp, habs⟩
    have herr : processParam (fetchAll rs).data_store 0 p
        = .error (PyError.keyError p) := by
      unfold processParam
      simp only [habs]
    have hrun := runParams_err_of_mem (fetchAll rs).data_store 0 paramNames
      p hp (PyError.keyError p) herr
    obtain ⟨e, he⟩ := Option.isSome_iff_exists.mp hrun
    cases w with
    | nil => exact absurd rfl hwne
    | cons e0 w0 =>
      simp only [playback, hlw, List.length_cons, playbackLoop, he]
      rfl

/-- Witness for the amended C7: on the concrete responses with
`air_pressure` skipped, the renderer ends in an error state. -/
theorem downstream_after_skip_amended_witness :
    ((playback (fetchAll skipResponses).data_store).2).isSome = true :=
  (downstream_after_skip_amended skipResponses).2.2
    [{ t := 150, s := some "2.5" }] (by decide) (by decide)
    ⟨"air_pressure", by decide, by decide⟩

set_option maxRecDepth 16000 in
/-- C8 counterexample: the URL registered for the `tide_predictions`
parameter carries `product=predictions`, not the parameter's own name, so
its query differs from the claimed one. -/
theorem urls_product_counterexample :
    ("tide_predictions",
     "https://api.tidesandcurrents.noaa.gov/api/prod/datagetter?begin_date=20241008&end_date=20241012&station=8721604&product=predictions&datum=MHHW&time_zone=gmt&units=metric&format=json")
      ∈ urls
    ∧ ("product", "predictions") ∈ queryPairs
        "https://api.tidesandcurrents.noaa.gov/api/prod/datagetter?begin_date=20241008&end_date=20241012&station=8721604&product=predictions&datum=MHHW&time_zone=gmt&units=metric&format=json"
    ∧ queryPairs
        "https://api.tidesandcurrents.noaa.gov/api/prod/datagetter?begin_date=20241008&end_date=20241012&station=8721604&product=predictions&datum=MHHW&time_zone=gmt&units=metric&format=json"
      ≠ expectedQuery "tide_predictions" := by
  decide

set_option maxRecDepth 16000 in
/-- C8 amended: every request URL targets the fixed API endpoint and
carries exactly the claimed query parameters, with `product` equal to the
parameter's own name for five parameters but `predictions` for the
`tide_predictions` parameter. -/
theorem urls_query_amended :
    ∀ pu ∈ urls,
      urlBase pu.2 = apiBase
      ∧ queryPairs pu.2
          = expectedQuery
              (if pu.1 = "tide_predictions" then "predictions" else pu.1) := by
  decide

set_option maxRecDepth 16000 in
/-- Witness for the amended C8 at the `wind` URL. -/
theorem urls_query_amended_witness :
    urlBase "https://api.tidesandcurrents.noaa.gov/api/prod/datagetter?begin_date=20241008&end_date=20241012&station=8721604&product=wind&datum=MHHW&time_zone=gmt&units=metric&format=json"
      = apiBase
    ∧ queryPairs "https://api.tidesandcurrents.noaa.gov/api/prod/datagetter?begin_date=20241008&end_date=20241012&station=8721604&product=wind&datum=MHHW&time_zone=gmt&units=metric&format=json"
      = expectedQuery "wind" :=
  urls_query_amended
    ("wind", "https://api.tidesandcurrents.noaa.gov/api/prod/datagetter?begin_date=20241008&end_date=20241012&station=8721604&product=wind&datum=MHHW&time_zone=gmt&units=metric&format=json")
    (by decide)

/-- C9: when every series present in the Dataset is at least as long as
the wind series, the playback loop's positional lookups stay in bounds —
it can never raise `IndexError`. -/
theorem playback_no_index_error (store : DataStore)
    (h : ∀ pr ∈ store, windLen store ≤ pr.2.length) :
    (playback store).2 ≠ some PyError.indexError := by
  cases hlw : lookupStore store "wind" with
  | none => simp [playback, hlw]
  | some w =>
    simp only [playback, hlw]
    apply playbackLoop_no_idx
    intro j hj
    rw [Nat.zero_add] at hj
    apply runParams_no_idx
    intro p hp hcon
    obtain ⟨series, hs, hoob⟩ := processParam_indexError_oob store j p hcon
    have hle : windLen store ≤ series.length :=
      h (p, series) (lookupStore_mem hs)
    have hwl : windLen store = w.length := by unfold windLen; rw [hlw]
    have hjlt : j < series.length := lt_of_lt_of_le (hwl ▸ hj) hle
    rw [List.get?_eq_get hjlt] at hoob
    exact Option.noConfusion hoob

/-- Witness for C9 at the concrete equal-length six-parameter Dataset. -/
theorem playback_no_index_error_witness :
    (playback windMissingStore).2 ≠ some PyError.indexError :=
  playback_no_index_error windMissingStore (by decide)

/-- C10: every point appended during playback has its x-coordinate
(the timestamp converted to milliseconds) inside the closed interval
`[min_time_ms, max_time_ms]` configured on the shared x-axis, because the
same conversion is applied to the interval endpoints. -/
theorem appended_points_within_axis (rs : List (String × Response))
    (mn mx : Int)
    (hagg : aggregateRange (fetchAll rs).timestamps = .ok (mn, mx)) :
    ∀ p x y,
      Event.append p x y ∈ (playback (fetchAll rs).data_store).1 →
      msOf mn ≤ x ∧ x ≤ msOf mx := by
  intro p x y hmem
  have horigin : ∃ series entry,
      lookupStore (fetchAll rs).data_store p = some series
      ∧ entry ∈ series ∧ x = msOf entry.t := by
    unfold playback at hmem
    cases hlw : lookupStore (fetchAll rs).data_store "wind" with
    | none => rw [hlw] at hmem; cases hmem
    | some w =>
      rw [hlw] at hmem
      exact append_mem_playbackLoop _ _ 0 p x y hmem
  obtain ⟨series, entry, hs, he, hx⟩ := horigin
  have hpool : entry.t ∈ (fetchAll rs).timestamps := by
    rw [fetchAll_pool rs]
    exact List.mem_flatMap.mpr ⟨(p, series), lookupStore_mem hs,
      List.mem_map.mpr ⟨entry, he, rfl⟩⟩
  cases hts : (fetchAll rs).timestamps with
  | nil => rw [hts] at hpool; cases hpool
  | cons t ts =>
    rw [hts] at hagg hpool
    unfold aggregateRange at hagg
    obtain ⟨hmn, hmx⟩ := Prod.mk.inj (Except.ok.inj hagg)
    have hbounds : mn ≤ entry.t ∧ entry.t ≤ mx := by
      rcases List.mem_cons.mp hpool with heq | hu
      · rw [heq]
        exact ⟨hmn ▸ foldl_min_le_start t ts, hmx ▸ le_foldl_max_start t ts⟩
      · exact ⟨hmn ▸ foldl_min_le_mem t ts entry.t hu,
          hmx ▸ mem_le_foldl_max t ts entry.t hu⟩
    subst hx
    have hc : (0 : ℚ) < 10 ^ 6 := by norm_num
    constructor
    · unfold msOf
      exact (div_le_div_iff_of_pos_right hc).mpr (by exact_mod_cast hbounds.1)
    · unfold msOf
      exact (div_le_div_iff_of_pos_right hc).mpr (by exact_mod_cast hbounds.2)

/-- Witness for C10: on the concrete responses whose pool spans
`[100, 150]`, the single appended wind point at instant 150 lies within
the axis interval. -/
theorem appended_points_within_axis_witness :
    msOf 100 ≤ msOf 150 ∧ msOf 150 ≤ msOf 150 := by
  have htr : (playback (fetchAll skipResponses).data_store).1
      = [Event.append "wind" (msOf 150) (PyFloat.finite (pyVal "2.5"))] := rfl
  exact appended_points_within_axis skipResponses 100 150 (by decide)
    "wind" (msOf 150) (PyFloat.finite (pyVal "2.5"))
    (by rw [htr]; exact List.mem_singleton.mpr rfl)
